import Mathlib

/-!
Verification development for the daily-journal web application.

The data model and operations below are shallow embeddings of the
TypeScript source: the `/api/entry/[id]` route handlers (PUT, DELETE),
the `DailyThought` widget component, and the full thoughts page.
The relational store is modelled as lists of rows; each SQL statement of
the handlers becomes an explicit transformation of that state, and
`affectedRows` is the number of rows matched by the statement's WHERE
clause.
-/

namespace DailyJournal

/-- A row of the `Entry` table: `{id, text, createdAt, user}`. -/
structure EntryRow where
  id : Nat
  text : String
  createdAt : String
  user : String
deriving Repr, DecidableEq

/-- A row of the `EntryCompetency` association table: `{entryID, competencyID}`. -/
structure ECRow where
  entryID : Nat
  competencyID : Nat
deriving Repr, DecidableEq

/-- The relational store backing the Entry API: the `Entry` table and the
`EntryCompetency` join table. -/
structure Store where
  entries : List EntryRow
  entryCompetencies : List ECRow
deriving Repr, DecidableEq

/-- The session object produced by `getServerSession`: `session.user?.email`
may be absent. -/
structure Session where
  userEmail : Option String
deriving Repr, DecidableEq

/-- The authentication check of the route handlers:
`if (!session || !session.user?.email)` — fails when there is no session,
no email on the session user, or (by JS truthiness) an empty-string email.
Returns the caller's email when the check passes. -/
def sessionEmail : Option Session → Option String
  | none => none
  | some s =>
    match s.userEmail with
    | none => none
    | some e => if e = "" then none else some e

/-- `DELETE FROM EntryCompetency WHERE entryID = ?` -/
def deleteECRows (entryId : Nat) (rows : List ECRow) : List ECRow :=
  rows.filter (fun r => !(r.entryID == entryId))

/-- `UPDATE Entry SET text = ? WHERE id = ? AND user = ?` — the resulting
table. -/
def updateEntryText (entryId : Nat) (userEmail text : String)
    (rows : List EntryRow) : List EntryRow :=
  rows.map (fun e =>
    if e.id == entryId && e.user == userEmail then { e with text := text } else e)

/-- Rows matched by `WHERE id = ? AND user = ?` (the `affectedRows` count of
the UPDATE / DELETE on `Entry`). -/
def matchedEntries (entryId : Nat) (userEmail : String)
    (rows : List EntryRow) : List EntryRow :=
  rows.filter (fun e => e.id == entryId && e.user == userEmail)

/-- `DELETE FROM Entry WHERE id = ? AND user = ?` — the resulting table. -/
def deleteEntryRows (entryId : Nat) (userEmail : String)
    (rows : List EntryRow) : List EntryRow :=
  rows.filter (fun e => !(e.id == entryId && e.user == userEmail))

/-- The PUT `/api/entry/[id]` handler.  Checks the session, runs the
`UPDATE Entry` statement, returns 404 when it affected zero rows, and
otherwise deletes every `EntryCompetency` row of the entry and inserts one
row per submitted competency id, returning 200.  Result: HTTP status code
paired with the store after the handler ran. -/
def putEntry (sess : Option Session) (entryId : Nat) (text : String)
    (competencyIDs : List Nat) (st : Store) : Nat × Store :=
  match sessionEmail sess with
  | none => (401, st)
  | some userEmail =>
    let affected := (matchedEntries entryId userEmail st.entries).length
    let st1 : Store := { st with entries := updateEntryText entryId userEmail text st.entries }
    if affected = 0 then (404, st1)
    else
      let ecCleared := deleteECRows entryId st1.entryCompetencies
      let ecFinal := ecCleared ++ competencyIDs.map (fun c => ⟨entryId, c⟩)
      (200, { st1 with entryCompetencies := ecFinal })

/-- The DELETE `/api/entry/[id]` handler.  Checks the session, deletes the
entry's `EntryCompetency` rows (unconditionally), then runs
`DELETE FROM Entry WHERE id = ? AND user = ?`; zero affected rows yields
404, otherwise 200. -/
def deleteEntry (sess : Option Session) (entryId : Nat) (st : Store) :
    Nat × Store :=
  match sessionEmail sess with
  | none => (401, st)
  | some userEmail =>
    let st1 : Store := { st with entryCompetencies := deleteECRows entryId st.entryCompetencies }
    let affected := (matchedEntries entryId userEmail st1.entries).length
    let st2 : Store := { st1 with entries := deleteEntryRows entryId userEmail st1.entries }
    if affected = 0 then (404, st2) else (200, st2)

/-- Modelled from the spec: the POST `/api/entry` handler
(`app/api/entry/route.ts` is not among the provided sources).  Per §4.2 and
§7 of the spec, an unauthenticated request returns 401 before any store
mutation; otherwise one `Entry` row owned by the caller is inserted,
followed by one association row per selected competency id, and the call
returns 200 with the created entry. -/
def postEntry (sess : Option Session) (text : String)
    (competencyIDs : List Nat) (newId : Nat) (createdAt : String)
    (st : Store) : Nat × Store :=
  match sessionEmail sess with
  | none => (401, st)
  | some userEmail =>
    let st1 : Store := { st with entries := st.entries ++ [⟨newId, text, createdAt, userEmail⟩] }
    let st2 : Store := { st1 with
      entryCompetencies := st1.entryCompetencies ++ competencyIDs.map (fun c => ⟨newId, c⟩) }
    (200, st2)

/-- A row of the GET `/api/entry` response as the client receives it at
runtime: `competencies` is declared `number[]` but may at runtime be
null/absent (`none`) or contain null ids (`some` of a list of `Option Nat`). -/
structure EntryFromDB where
  id : Nat
  text : String
  createdAt : String
  competencies : Option (List (Option Nat))
deriving Repr, DecidableEq

/-- The presentation-layer `Thought`: derived from an entry row, with the
timestamp already formatted for display. -/
structure Thought where
  id : Nat
  text : String
  time : String
  competencies : List (Option Nat)
deriving Repr, DecidableEq

/-- The competencies field of the transform in `loadThoughts`:
`(row.competencies && row.competencies.filter((c) => c !== null)) || []`.
A null/absent array is falsy, so `&&` short-circuits to it and `|| []`
yields the empty list; an array is truthy (even when empty), so the
filtered array is returned as is. -/
def formatCompetencies : Option (List (Option Nat)) → List (Option Nat)
  | none => []
  | some l => l.filter (fun c => !(c == none))

namespace DailyThoughtWidget

/-- The `data.map((row) => ...)` transform of `loadThoughts` in
`DailyThought.tsx`; `fmt` stands for the external
`Date.toLocaleString` call. -/
def formatRow (fmt : String → String) (row : EntryFromDB) : Thought :=
  { id := row.id, text := row.text, time := fmt row.createdAt,
    competencies := formatCompetencies row.competencies }

/-- `loadThoughts` of the compact widget: maps every received row to a
`Thought`. -/
def loadThoughts (fmt : String → String) (data : List EntryFromDB) :
    List Thought :=
  data.map (formatRow fmt)

end DailyThoughtWidget

namespace ThoughtsPage

/-- The `data.map((row) => ...)` transform of `loadThoughts` in
`thoughts/page.tsx`; textually identical to the widget's. -/
def formatRow (fmt : String → String) (row : EntryFromDB) : Thought :=
  { id := row.id, text := row.text, time := fmt row.createdAt,
    competencies := formatCompetencies row.competencies }

/-- `loadThoughts` of the full thoughts page. -/
def loadThoughts (fmt : String → String) (data : List EntryFromDB) :
    List Thought :=
  data.map (formatRow fmt)

end ThoughtsPage

/-- JavaScript `String.prototype.trim`: strips whitespace from both ends
of the string. -/
def jsTrim (s : String) : String :=
  String.mk
    (((s.data.dropWhile Char.isWhitespace).reverse.dropWhile
      Char.isWhitespace).reverse)

/-- The React state of the `DailyThought` component that `handleSave`
reads and writes. -/
structure ComponentState where
  input : String
  thoughts : List Thought
  selected : List Nat
  editingId : Option Nat
deriving Repr, DecidableEq

/-- An HTTP request issued by the component via `fetch`. -/
inductive HttpRequest where
  | put (id : Nat) (text : String) (competencyIDs : List Nat)
  | post (text : String) (competencyIDs : List Nat)
deriving Repr, DecidableEq

/-- `handleSave` of `DailyThought.tsx`, as a function of the component
state.  `respOk` models `res.ok` of the fetch response and `respThought`
the created entry parsed from a successful POST response.  Returns the new
component state and the list of HTTP requests issued.  An input whose
trimmed form is empty returns immediately: no request, state unchanged. -/
def handleSave (st : ComponentState) (respOk : Bool) (respThought : Thought) :
    ComponentState × List HttpRequest :=
  if jsTrim st.input = "" then (st, [])
  else
    match st.editingId with
    | some eid =>
      let req := HttpRequest.put eid st.input st.selected
      if !respOk then (st, [req])
      else
        ({ input := "",
           thoughts := st.thoughts.map (fun t =>
             if t.id == eid then
               { t with text := st.input,
                        competencies := st.selected.map (fun c => some c) }
             else t),
           selected := [], editingId := none }, [req])
    | none =>
      let req := HttpRequest.post st.input st.selected
      if !respOk then (st, [req])
      else
        ({ input := "", thoughts := respThought :: st.thoughts,
           selected := [], editingId := none }, [req])

/-- `toggleCompetency` of `DailyThought.tsx`:
`prev.includes(id) ? prev.filter((c) => c !== id) : [...prev, id]`. -/
def toggleCompetency (id : Nat) (prev : List Nat) : List Nat :=
  if prev.contains id then prev.filter (fun c => !(c == id)) else prev ++ [id]

/-- What the recent-thoughts section of the compact widget renders. -/
inductive WidgetView where
  | placeholder
  | thoughtList (shown : List Thought)
deriving Repr, DecidableEq

/-- The recent-thoughts rendering of `DailyThought.tsx`:
`thoughts.length === 0 ? (<p>...</p>) : thoughts.slice(0, 5).map(...)`. -/
def renderRecent (thoughts : List Thought) : WidgetView :=
  if thoughts.length = 0 then WidgetView.placeholder
  else WidgetView.thoughtList (thoughts.take 5)

/-- A concrete presentation thought, used to instantiate theorems. -/
def sampleThought : Thought :=
  { id := 1, text := "hello", time := "Jan 01, 2026, 09:00 AM", competencies := [] }

/-- A concrete GET response, one row with a null competency id and one row
with a null competencies field, used to instantiate theorems. -/
def sampleRows : List EntryFromDB :=
  [{ id := 1, text := "a", createdAt := "2026-01-01", competencies := some [some 1, none, some 3] },
   { id := 2, text := "b", createdAt := "2026-01-02", competencies := none }]

/-- A concrete store with one entry per user, used to instantiate theorems. -/
def sampleStore : Store :=
  { entries :=
      [{ id := 1, text := "mine", createdAt := "2026-01-01", user := "a@x" },
       { id := 2, text := "theirs", createdAt := "2026-01-02", user := "b@x" }],
    entryCompetencies := [⟨1, 3⟩, ⟨2, 4⟩] }

/-- A concrete authenticated session for user `a@x`. -/
def sampleSession : Option Session := some { userEmail := some "a@x" }

/-- A concrete component state whose input is whitespace-only. -/
def sampleBlankState : ComponentState :=
  { input := "   ", thoughts := [sampleThought], selected := [1, 2],
    editingId := some 1 }

/- ------------------------------------------------------------------ -/
/- Helper lemmas about the store operations                           -/
/- ------------------------------------------------------------------ -/

theorem mem_deleteECRows (entryId : Nat) (rows : List ECRow) (r : ECRow) :
    r ∈ deleteECRows entryId rows ↔ r ∈ rows ∧ r.entryID ≠ entryId := by
  simp [deleteECRows, List.mem_filter]

theorem mem_deleteEntryRows (entryId : Nat) (userEmail : String)
    (rows : List EntryRow) (e : EntryRow) :
    e ∈ deleteEntryRows entryId userEmail rows ↔
      e ∈ rows ∧ ¬(e.id = entryId ∧ e.user = userEmail) := by
  simp only [deleteEntryRows, List.mem_filter, Bool.not_eq_eq_eq_not,
    Bool.not_true, Bool.and_eq_false_imp, beq_iff_eq]
  constructor
  · rintro ⟨hm, hp⟩
    refine ⟨hm, ?_⟩
    rintro ⟨h1, h2⟩
    simp [h1, h2] at hp
  · rintro ⟨hm, hp⟩
    refine ⟨hm, ?_⟩
    by_cases h1 : e.id = entryId
    · by_cases h2 : e.user = userEmail
      · exact absurd ⟨h1, h2⟩ hp
      · simp [h1, h2]
    · simp [h1]

theorem matchedEntries_eq_nil (entryId : Nat) (userEmail : String)
    (rows : List EntryRow) :
    matchedEntries entryId userEmail rows = [] ↔
      ∀ e ∈ rows, ¬(e.id = entryId ∧ e.user = userEmail) := by
  simp [matchedEntries, List.filter_eq_nil_iff, not_and]

/-- C8: `toggleCompetency` flips membership of `id` in a duplicate-free
selected list: the id is removed if present and appended if absent, the
result is duplicate-free, every other id's membership is unchanged, and
toggling twice restores the original membership. -/
theorem toggleCompetency_flips_membership (id : Nat) (prev : List Nat)
    (h : prev.Nodup) :
    (id ∈ prev → id ∉ toggleCompetency id prev) ∧
    (id ∉ prev → toggleCompetency id prev = prev ++ [id] ∧
      id ∈ toggleCompetency id prev) ∧
    (toggleCompetency id prev).Nodup ∧
    (∀ x, x ≠ id → (x ∈ toggleCompetency id prev ↔ x ∈ prev)) ∧
    (∀ x, x ∈ toggleCompetency id (toggleCompetency id prev) ↔ x ∈ prev) := by
  by_cases hmem : id ∈ prev
  · have hc : prev.contains id = true := List.elem_eq_true_of_mem hmem
    have htog : toggleCompetency id prev = prev.filter (fun c => !(c == id)) := by
      simp [toggleCompetency, hc, hmem]
    have hnotin : id ∉ prev.filter (fun c => !(c == id)) := by
      intro hx
      simp [List.mem_filter] at hx
    have hdouble : toggleCompetency id (toggleCompetency id prev) =
        prev.filter (fun c => !(c == id)) ++ [id] := by
      rw [htog]
      have hc2 : (prev.filter (fun c => !(c == id))).contains id = false := by
        simpa using hnotin
      simp [toggleCompetency, hc2]
    refine ⟨?_, ?_, ?_, ?_, ?_⟩
    · intro _
      rw [htog]
      exact hnotin
    · intro hno
      exact absurd hmem hno
    · rw [htog]
      exact h.filter _
    · intro x hx
      rw [htog]
      simp [List.mem_filter, hx]
    · intro x
      rw [hdouble]
      simp only [List.mem_append, List.mem_filter, List.mem_singleton]
      constructor
      · rintro (⟨hx, _⟩ | hx)
        · exact hx
        · exact hx ▸ hmem
      · intro hx
        by_cases hxi : x = id
        · exact Or.inr hxi
        · exact Or.inl ⟨hx, by simp [hxi]⟩
  · have hc : prev.contains id = false := by
      simpa using hmem
    have htog : toggleCompetency id prev = prev ++ [id] := by
      simp [toggleCompetency, hc, hmem]
    have hdouble : toggleCompetency id (toggleCompetency id prev) =
        (prev ++ [id]).filter (fun c => !(c == id)) := by
      rw [htog]
      have hc2 : (prev ++ [id]).contains id = true := by simp
      simp [toggleCompetency, hc2]
    refine ⟨?_, ?_, ?_, ?_, ?_⟩
    · intro hx
      exact absurd hx hmem
    · intro _
      exact ⟨htog, by simp [htog]⟩
    · rw [htog]
      exact h.append (List.nodup_singleton id)
        (by simpa [List.disjoint_singleton] using hmem)
    · intro x hx
      simp [htog, hx]
    · intro x
      rw [hdouble]
      simp only [List.filter_append, List.mem_append, List.mem_filter]
      constructor
      · rintro (⟨hx, _⟩ | hx)
        · exact hx
        · simp at hx
      · intro hx
        have hxi : x ≠ id := fun he => hmem (he ▸ hx)
        exact Or.inl ⟨hx, by simp [hxi]⟩

/-- Witness for C8 at the concrete list `[1, 3]` and id `2`. -/
theorem toggleCompetency_flips_membership_witness :
    (2 ∈ ([1, 3] : List Nat) → 2 ∉ toggleCompetency 2 [1, 3]) ∧
    (2 ∉ ([1, 3] : List Nat) → toggleCompetency 2 [1, 3] = [1, 3] ++ [2] ∧
      2 ∈ toggleCompetency 2 [1, 3]) ∧
    (toggleCompetency 2 [1, 3]).Nodup ∧
    (∀ x, x ≠ 2 → (x ∈ toggleCompetency 2 [1, 3] ↔ x ∈ ([1, 3] : List Nat))) ∧
    (∀ x, x ∈ toggleCompetency 2 (toggleCompetency 2 [1, 3]) ↔
      x ∈ ([1, 3] : List Nat)) :=
  toggleCompetency_flips_membership 2 [1, 3] (by decide)

/-- C7: the compact widget renders at most the first 5 thoughts, a prefix
of the list in its existing order, and shows the placeholder exactly when
the list is empty. -/
theorem renderRecent_first_five (ts : List Thought) :
    (ts = [] → renderRecent ts = WidgetView.placeholder) ∧
    (ts ≠ [] → renderRecent ts = WidgetView.thoughtList (ts.take 5) ∧
      (ts.take 5).length ≤ 5 ∧ (ts.take 5) <+: ts) := by
  constructor
  · intro h
    simp [renderRecent, h]
  · intro h
    have hlen : ts.length ≠ 0 := by simpa [List.length_eq_zero] using h
    refine ⟨by simp [renderRecent, hlen], ?_, List.take_prefix 5 ts⟩
    simpa using List.length_take_le 5 ts

/-- Witness for C7 at the empty list and a concrete one-element list. -/
theorem renderRecent_first_five_witness :
    renderRecent ([] : List Thought) = WidgetView.placeholder ∧
    (renderRecent [sampleThought] =
        WidgetView.thoughtList ([sampleThought].take 5) ∧
      ([sampleThought].take 5).length ≤ 5 ∧
      ([sampleThought].take 5) <+: [sampleThought]) :=
  ⟨(renderRecent_first_five []).1 rfl,
   (renderRecent_first_five [sampleThought]).2 (by simp)⟩

/-- C5: every `Thought` derived from a GET `/api/entry` row has a
competencies list with no null element, and a null/absent competencies
field maps to the empty list, in both the compact widget and the full
thoughts page. -/
theorem loadThoughts_filters_null_competencies (fmt : String → String)
    (data : List EntryFromDB) :
    (∀ t ∈ DailyThoughtWidget.loadThoughts fmt data, none ∉ t.competencies) ∧
    (∀ t ∈ ThoughtsPage.loadThoughts fmt data, none ∉ t.competencies) ∧
    (∀ row ∈ data, row.competencies = none →
      (DailyThoughtWidget.formatRow fmt row).competencies = [] ∧
      (ThoughtsPage.formatRow fmt row).competencies = []) := by
  have hno : ∀ comps, none ∉ formatCompetencies comps := by
    intro comps hx
    match comps with
    | none => simp [formatCompetencies] at hx
    | some l => simp [formatCompetencies, List.mem_filter] at hx
  refine ⟨?_, ?_, ?_⟩
  · intro t ht
    simp only [DailyThoughtWidget.loadThoughts, List.mem_map] at ht
    obtain ⟨row, _, rfl⟩ := ht
    exact hno row.competencies
  · intro t ht
    simp only [ThoughtsPage.loadThoughts, List.mem_map] at ht
    obtain ⟨row, _, rfl⟩ := ht
    exact hno row.competencies
  · intro row _ hnull
    exact ⟨by simp [DailyThoughtWidget.formatRow, hnull, formatCompetencies],
      by simp [ThoughtsPage.formatRow, hnull, formatCompetencies]⟩

/-- Witness for C5 at a concrete response containing a null competency id
and a row with a null competencies field. -/
theorem loadThoughts_filters_null_competencies_witness :
    (∀ t ∈ DailyThoughtWidget.loadThoughts (fun s => s) sampleRows,
      none ∉ t.competencies) ∧
    (∀ t ∈ ThoughtsPage.loadThoughts (fun s => s) sampleRows,
      none ∉ t.competencies) ∧
    (∀ row ∈ sampleRows, row.competencies = none →
      (DailyThoughtWidget.formatRow (fun s => s) row).competencies = [] ∧
      (ThoughtsPage.formatRow (fun s => s) row).competencies = []) :=
  loadThoughts_filters_null_competencies (fun s => s) sampleRows

/-- C6: when the trimmed input is empty, `handleSave` issues no HTTP
request and leaves the component state unchanged; and the rejection is not
enforced by the API: the status of the PUT handler does not depend on the
submitted text at all. -/
theorem handleSave_blank_input_no_effect (st : ComponentState)
    (respOk : Bool) (respThought : Thought) (h : jsTrim st.input = "") :
    handleSave st respOk respThought = (st, []) ∧
    (∀ sess entryId compIDs store text1 text2,
      (putEntry sess entryId text1 compIDs store).1 =
        (putEntry sess entryId text2 compIDs store).1) := by
  constructor
  · simp [handleSave, h]
  · intro sess entryId compIDs store text1 text2
    cases hse : sessionEmail sess with
    | none => simp [putEntry, hse]
    | some u =>
      simp only [putEntry, hse]
      by_cases ha : (matchedEntries entryId u store.entries).length = 0
      · simp [ha]
      · simp [ha]

/-- Witness for C6 at a concrete state whose input is whitespace-only. -/
theorem handleSave_blank_input_no_effect_witness :
    handleSave sampleBlankState true sampleThought = (sampleBlankState, []) ∧
    (∀ sess entryId compIDs store text1 text2,
      (putEntry sess entryId text1 compIDs store).1 =
        (putEntry sess entryId text2 compIDs store).1) :=
  handleSave_blank_input_no_effect sampleBlankState true sampleThought (by decide)

/-- C3: a POST, PUT, or DELETE request without a valid authenticated
session (no session, or a session without a user email) returns 401 with
the store completely unchanged. -/
theorem unauthenticated_mutations_401_no_mutation (sess : Option Session)
    (h : sessionEmail sess = none) (entryId newId : Nat)
    (text createdAt : String) (compIDs : List Nat) (st : Store) :
    putEntry sess entryId text compIDs st = (401, st) ∧
    deleteEntry sess entryId st = (401, st) ∧
    postEntry sess text compIDs newId createdAt st = (401, st) := by
  refine ⟨?_, ?_, ?_⟩
  · simp [putEntry, h]
  · simp [deleteEntry, h]
  · simp [postEntry, h]

/-- Witness for C3 at a missing session and a concrete store. -/
theorem unauthenticated_mutations_401_no_mutation_witness :
    putEntry none 1 "x" [1] sampleStore = (401, sampleStore) ∧
    deleteEntry none 1 sampleStore = (401, sampleStore) ∧
    postEntry none "x" [1] 3 "2026-01-03" sampleStore = (401, sampleStore) :=
  unauthenticated_mutations_401_no_mutation none rfl 1 3 "x" "2026-01-03"
    [1] sampleStore

/-- C2: an authenticated PUT or DELETE on an entry id that exists but is
owned by a different user returns 404 — the same signal as for an absent
id — and never 200 or 403. -/
theorem foreign_entry_put_delete_404 (sess : Option Session) (u : String)
    (entryId : Nat) (text : String) (compIDs : List Nat) (st : Store)
    (hs : sessionEmail sess = some u)
    (hexists : ∃ e ∈ st.entries, e.id = entryId)
    (hforeign : ∀ e ∈ st.entries, e.id = entryId → e.user ≠ u) :
    (putEntry sess entryId text compIDs st).1 = 404 ∧
    (deleteEntry sess entryId st).1 = 404 ∧
    (putEntry sess entryId text compIDs st).1 ≠ 200 ∧
    (putEntry sess entryId text compIDs st).1 ≠ 403 ∧
    (deleteEntry sess entryId st).1 ≠ 200 ∧
    (deleteEntry sess entryId st).1 ≠ 403 := by
  have hm : matchedEntries entryId u st.entries = [] := by
    rw [matchedEntries_eq_nil]
    intro e he hc
    exact hforeign e he hc.1 hc.2
  have hput : (putEntry sess entryId text compIDs st).1 = 404 := by
    simp [putEntry, hs, hm]
  have hdel : (deleteEntry sess entryId st).1 = 404 := by
    simp [deleteEntry, hs, hm]
  exact ⟨hput, hdel, by simp [hput], by simp [hput], by simp [hdel],
    by simp [hdel]⟩

/-- Witness for C2: user `a@x` targets entry 2, which exists and is owned
by `b@x`. -/
theorem foreign_entry_put_delete_404_witness :
    (putEntry sampleSession 2 "new" [1] sampleStore).1 = 404 ∧
    (deleteEntry sampleSession 2 sampleStore).1 = 404 ∧
    (putEntry sampleSession 2 "new" [1] sampleStore).1 ≠ 200 ∧
    (putEntry sampleSession 2 "new" [1] sampleStore).1 ≠ 403 ∧
    (deleteEntry sampleSession 2 sampleStore).1 ≠ 200 ∧
    (deleteEntry sampleSession 2 sampleStore).1 ≠ 403 :=
  foreign_entry_put_delete_404 sampleSession "a@x" 2 "new" [1] sampleStore
    (by decide) (by decide) (by decide)

theorem text_of_mem_updateEntryText (entryId : Nat) (u text : String)
    (rows : List EntryRow) (e : EntryRow)
    (he : e ∈ updateEntryText entryId u text rows)
    (h1 : e.id = entryId) (h2 : e.user = u) : e.text = text := by
  simp only [updateEntryText, List.mem_map] at he
  obtain ⟨e0, _, heq⟩ := he
  by_cases hcond : e0.id == entryId && e0.user == u
  · rw [if_pos hcond] at heq
    rw [← heq]
  · rw [if_neg hcond] at heq
    subst heq
    simp [h1, h2] at hcond

/-- C1: a successful PUT overwrites the entry's text with the new text and
fully replaces the entry's association rows with exactly the submitted
competency id set: every remaining row for the entry carries a submitted
id, every submitted id has a row, rows of other entries are untouched, and
a PUT with an empty list leaves the entry with no association rows. -/
theorem put_success_replaces_associations (sess : Option Session)
    (u : String) (entryId : Nat) (text : String) (compIDs : List Nat)
    (st st2 : Store) (hs : sessionEmail sess = some u)
    (hok : (putEntry sess entryId text compIDs st).1 = 200)
    (hst2 : st2 = (putEntry sess entryId text compIDs st).2) :
    (∀ e ∈ st2.entries, e.id = entryId → e.user = u → e.text = text) ∧
    (∀ r ∈ st2.entryCompetencies, r.entryID = entryId →
      r.competencyID ∈ compIDs) ∧
    (∀ c ∈ compIDs, (⟨entryId, c⟩ : ECRow) ∈ st2.entryCompetencies) ∧
    (∀ r : ECRow, r.entryID ≠ entryId →
      (r ∈ st2.entryCompetencies ↔ r ∈ st.entryCompetencies)) ∧
    (compIDs = [] → ∀ r ∈ st2.entryCompetencies, r.entryID ≠ entryId) := by
  by_cases ha : (matchedEntries entryId u st.entries).length = 0
  · exfalso
    simp [putEntry, hs, ha] at hok
  · have hst2e : st2 =
        { entries := updateEntryText entryId u text st.entries,
          entryCompetencies := deleteECRows entryId st.entryCompetencies ++
            compIDs.map (fun c => ⟨entryId, c⟩) } := by
      rw [hst2]
      simp [putEntry, hs, ha]
    rw [hst2e]
    refine ⟨?_, ?_, ?_, ?_, ?_⟩
    · intro e he h1 h2
      exact text_of_mem_updateEntryText entryId u text st.entries e he h1 h2
    · intro r hr hrid
      rcases List.mem_append.mp hr with hl | hrt
      · exact absurd hrid ((mem_deleteECRows entryId st.entryCompetencies r).mp hl).2
      · obtain ⟨c, hc, rfl⟩ := List.mem_map.mp hrt
        exact hc
    · intro c hc
      exact List.mem_append_right _ (List.mem_map.mpr ⟨c, hc, rfl⟩)
    · intro r hrid
      constructor
      · intro hr
        rcases List.mem_append.mp hr with hl | hrt
        · exact ((mem_deleteECRows entryId st.entryCompetencies r).mp hl).1
        · obtain ⟨c, _, rfl⟩ := List.mem_map.mp hrt
          simp at hrid
      · intro hr
        exact List.mem_append_left _
          ((mem_deleteECRows entryId st.entryCompetencies r).mpr ⟨hr, hrid⟩)
    · intro hnil r hr
      rw [hnil] at hr
      simp only [List.map_nil, List.append_nil] at hr
      exact ((mem_deleteECRows entryId st.entryCompetencies r).mp hr).2

/-- Witness for C1: user `a@x` updates their entry 1 with text `"updated"`
and an empty competency list in the concrete store. -/
theorem put_success_replaces_associations_witness :
    (∀ e ∈ (putEntry sampleSession 1 "updated" [] sampleStore).2.entries,
      e.id = 1 → e.user = "a@x" → e.text = "updated") ∧
    (∀ r ∈ (putEntry sampleSession 1 "updated" []
        sampleStore).2.entryCompetencies, r.entryID = 1 →
      r.competencyID ∈ ([] : List Nat)) ∧
    (∀ c ∈ ([] : List Nat), (⟨1, c⟩ : ECRow) ∈
      (putEntry sampleSession 1 "updated" [] sampleStore).2.entryCompetencies) ∧
    (∀ r : ECRow, r.entryID ≠ 1 →
      (r ∈ (putEntry sampleSession 1 "updated" []
          sampleStore).2.entryCompetencies ↔
        r ∈ sampleStore.entryCompetencies)) ∧
    (([] : List Nat) = [] →
      ∀ r ∈ (putEntry sampleSession 1 "updated" []
        sampleStore).2.entryCompetencies, r.entryID ≠ 1) :=
  put_success_replaces_associations sampleSession "a@x" 1 "updated" []
    sampleStore (putEntry sampleSession 1 "updated" [] sampleStore).2
    (by decide) (by decide) rfl

/-- C4: with the session authenticated as `u` and entry ids unique (every
row with the target id is owned by `u` when `u` owns the entry), a DELETE
of an entry owned by the caller returns 200 and afterwards no association
row and no entry row for that id remains; when no row matches id and
owner, the handler returns the 404 not-found signal. -/
theorem delete_success_removes_entry_and_associations (sess : Option Session)
    (u : String) (entryId : Nat) (st : Store)
    (hs : sessionEmail sess = some u)
    (hkey : ∀ e ∈ st.entries, e.id = entryId → e.user = u) :
    ((∃ e ∈ st.entries, e.id = entryId ∧ e.user = u) →
      (deleteEntry sess entryId st).1 = 200 ∧
      (∀ r ∈ (deleteEntry sess entryId st).2.entryCompetencies,
        r.entryID ≠ entryId) ∧
      (∀ e ∈ (deleteEntry sess entryId st).2.entries, e.id ≠ entryId)) ∧
    ((∀ e ∈ st.entries, ¬(e.id = entryId ∧ e.user = u)) →
      (deleteEntry sess entryId st).1 = 404) := by
  constructor
  · rintro ⟨e, he, h1, h2⟩
    have hmem : e ∈ matchedEntries entryId u st.entries := by
      simp [matchedEntries, List.mem_filter, he, h1, h2]
    have hlen : (matchedEntries entryId u st.entries).length ≠ 0 := by
      have := List.length_pos_of_mem hmem
      omega
    refine ⟨by simp [deleteEntry, hs, hlen], ?_, ?_⟩
    · intro r hr
      have hr2 : r ∈ deleteECRows entryId st.entryCompetencies := by
        simpa [deleteEntry, hs, hlen] using hr
      exact ((mem_deleteECRows entryId st.entryCompetencies r).mp hr2).2
    · intro e2 he2
      have he3 : e2 ∈ deleteEntryRows entryId u st.entries := by
        simpa [deleteEntry, hs, hlen] using he2
      obtain ⟨hin, hnot⟩ :=
        (mem_deleteEntryRows entryId u st.entries e2).mp he3
      intro hid
      exact hnot ⟨hid, hkey e2 hin hid⟩
  · intro hnone
    have hm : matchedEntries entryId u st.entries = [] :=
      (matchedEntries_eq_nil entryId u st.entries).mpr hnone
    simp [deleteEntry, hs, hm]

/-- Witness for C4: user `a@x` deletes their entry 1 from the concrete
store. -/
theorem delete_success_removes_entry_and_associations_witness :
    ((∃ e ∈ sampleStore.entries, e.id = 1 ∧ e.user = "a@x") →
      (deleteEntry sampleSession 1 sampleStore).1 = 200 ∧
      (∀ r ∈ (deleteEntry sampleSession 1 sampleStore).2.entryCompetencies,
        r.entryID ≠ 1) ∧
      (∀ e ∈ (deleteEntry sampleSession 1 sampleStore).2.entries,
        e.id ≠ 1)) ∧
    ((∀ e ∈ sampleStore.entries, ¬(e.id = 1 ∧ e.user = "a@x")) →
      (deleteEntry sampleSession 1 sampleStore).1 = 404) :=
  delete_success_removes_entry_and_associations sampleSession "a@x" 1
    sampleStore (by decide) (by decide)

end DailyJournal
